import Mathlib

/-!
Shallow embedding of `retrieveData.py` (class `DataHandler`): a small client
that builds Tiingo request URLs, fetches historical price series per ticker,
merges them into one date-indexed table, and computes simple or logarithmic
returns.

Modelling conventions:
* A pandas `DataFrame` is a date index (`List ℤ`, dates as ordinal days)
  together with named columns; a cell is `Option ℝ` where `none` stands for a
  missing value / NaN (IEEE NaN and infinities produced by division by zero or
  log of a non-positive number are modelled as `none`).
* A column carries a dtype tag (`numeric` vs `object`) mirroring pandas dtypes,
  which is what `select_dtypes(exclude=[np.number])` inspects.
* Python exceptions become an `Except PyErr` result; the per-ticker `try`
  blocks of `fetch_data` are resolved into an abstract fetch outcome
  `String → Option DataFrame` (the network and CSV parsing are I/O, so a
  fetch result is a parameter of the model, `none` meaning any caught
  transport/HTTP/parse failure).
* `dt.date.today()` is ambient state; it is made an explicit `today` argument
  of the functions that read it.
-/

inductive Dtype where
  | numeric
  | object
deriving DecidableEq

/-- One pandas column: a dtype tag plus the cell list (`none` = NaN). -/
structure Column where
  dtype : Dtype
  cells : List (Option ℝ)

/-- A pandas DataFrame: a date index plus named columns. -/
structure DataFrame where
  index : List ℤ
  cols : List (String × Column)

/-- Python exceptions that the embedded code can raise. -/
inductive PyErr where
  | valueErrorEmpty
  | valueErrorNonNumeric (names : List String)
  | keyError (key : String)
  | ioError
deriving DecidableEq

/-- Column names of a frame, in order. -/
def colNames (df : DataFrame) : List String :=
  df.cols.map Prod.fst

/-- pandas `DataFrame.empty`: true iff either axis has length 0. -/
def dfEmpty (df : DataFrame) : Bool :=
  df.index.isEmpty || df.cols.isEmpty

/-- A frame is well formed when every column has one cell per index entry. -/
def dfWF (df : DataFrame) : Prop :=
  ∀ p ∈ df.cols, p.2.cells.length = df.index.length

/-- The `columns` argument of `get_returns`: `None`, a single name, or a list
(`Union[str, List[str]]`). -/
inductive ColsArg where
  | noneArg
  | strArg (s : String)
  | listArg (l : List String)

/-- Promote a single column name to a one-element selection, as the source does
with `if isinstance(columns, str): columns = [columns]`. -/
def normalizeCols : ColsArg → Option (List String)
  | .noneArg => none
  | .strArg s => some [s]
  | .listArg l => some l

/-- `df[columns]`: narrow to the named columns; a missing name raises
`KeyError`. -/
def dfSelectNames (df : DataFrame) (names : List String) : Except PyErr DataFrame :=
  match names.find? (fun n => (df.cols.lookup n).isNone) with
  | some n => .error (.keyError n)
  | none => .ok ⟨df.index, names.map (fun n => (n, (df.cols.lookup n).getD ⟨Dtype.object, []⟩))⟩

/-- `df.select_dtypes(exclude=[np.number]).columns`: names of the non-numeric
columns. -/
def nonNumericNames (df : DataFrame) : List String :=
  (df.cols.filter (fun p => p.2.dtype ≠ Dtype.numeric)).map Prod.fst

/-- `df.shift(1)` on one column: every cell moves down one row, the first cell
becomes missing, the last is dropped. -/
def shift1 (cells : List (Option ℝ)) : List (Option ℝ) :=
  (none :: cells).take cells.length

/-- One cell of `df.pct_change()`: `(value - previous) / previous`; missing
operands, and the division-by-zero corner, yield a missing cell. -/
noncomputable def pctCell : Option ℝ → Option ℝ → Option ℝ
  | some x, some y => if y = 0 then none else some ((x - y) / y)
  | _, _ => none

/-- One cell of `np.log(df / df.shift(1))`: `ln (value / previous)`; missing
operands, division by zero, and log of a non-positive ratio yield a missing
cell. -/
noncomputable def logCell : Option ℝ → Option ℝ → Option ℝ
  | some x, some y =>
      if y = 0 then none
      else if x / y ≤ 0 then none else some (Real.log (x / y))
  | _, _ => none

/-- One result cell: logarithmic return when `lg`, else simple return. -/
noncomputable def retCell (lg : Bool) (x y : Option ℝ) : Option ℝ :=
  if lg then logCell x y else pctCell x y

/-- The returns computation on one column: each row paired with the previous
row's value (via `shift1`), mapped through `retCell`. -/
noncomputable def retColumn (lg : Bool) (c : Column) : Column :=
  ⟨Dtype.numeric, (c.cells.zip (shift1 c.cells)).map (fun p => retCell lg p.1 p.2)⟩

/-- The tail of `get_returns` after narrowing: the numeric-dtype check
(`ValueError` naming the offending columns) and then the per-column
computation followed by `set_index(df.index)` (which re-installs the narrowed
frame's own index). -/
noncomputable def returnsCompute (lg : Bool) (ndf : DataFrame) : Except PyErr DataFrame :=
  if nonNumericNames ndf = [] then
    .ok ⟨ndf.index, ndf.cols.map (fun p => (p.1, retColumn lg p.2))⟩
  else
    .error (.valueErrorNonNumeric (nonNumericNames ndf))

/-- `DataHandler.get_returns`: reject an empty or single-row frame, narrow to
the selected columns if a selector was given, then validate dtypes and compute
simple or logarithmic returns. -/
noncomputable def get_returns (df : DataFrame) (carg : ColsArg) (lg : Bool) :
    Except PyErr DataFrame :=
  if dfEmpty df ∨ df.index.length < 2 then .error .valueErrorEmpty
  else
    match normalizeCols carg with
    | some names =>
        match dfSelectNames df names with
        | .error e => .error e
        | .ok ndf => returnsCompute lg ndf
    | none => returnsCompute lg df

/-- Heap of allocated frames, for observing that `get_returns` never mutates
its argument: every pandas operation it performs (`df[columns]`, `shift`,
`pct_change`, `np.log`, non-inplace `set_index`) allocates a fresh frame. -/
abbrev Heap : Type := List DataFrame

/-- Heap-level tail of `get_returns`: the dtype check allocates nothing; the
returns computation allocates one frame and the trailing non-inplace
`set_index(df.index)` allocates another. -/
noncomputable def heapCompute (h : Heap) (ndf : DataFrame) (lg : Bool) :
    Heap × Except PyErr Nat :=
  if nonNumericNames ndf = [] then
    let ret : DataFrame := ⟨ndf.index, ndf.cols.map (fun p => (p.1, retColumn lg p.2))⟩
    let h2 : Heap := h ++ [ret]
    (h2 ++ [⟨ndf.index, ret.cols⟩], .ok h2.length)
  else
    (h, .error (.valueErrorNonNumeric (nonNumericNames ndf)))

/-- Heap-level `get_returns`: the caller's frame lives at `r`; the local
variable `df` is rebound to the freshly allocated narrowed frame when a
selector is supplied, and no operation writes through `r`. -/
noncomputable def get_returns_heap (h : Heap) (r : Nat) (carg : ColsArg) (lg : Bool) :
    Heap × Except PyErr Nat :=
  let df := h.getD r ⟨[], []⟩
  if dfEmpty df ∨ df.index.length < 2 then (h, .error .valueErrorEmpty)
  else
    match normalizeCols carg with
    | some names =>
        match dfSelectNames df names with
        | .error e => (h, .error e)
        | .ok ndf => heapCompute (h ++ [ndf]) ndf lg
    | none => heapCompute h df lg

/-- The `tickers` argument of `get_historical_data`
(`Union[str, List[str]]`). -/
inductive TickersArg where
  | one (t : String)
  | many (l : List String)

/-- `if isinstance(tickers, str): tickers = [tickers]`. -/
def normTickers : TickersArg → List String
  | .one t => [t]
  | .many l => l

/-- `pd.date_range(start, end)` at daily frequency over ordinal dates: both
endpoints included, empty when the end precedes the start. -/
def dateRange (s e : ℤ) : List ℤ :=
  (List.range (e - s + 1).toNat).map (fun i => s + i)

/-- Align a source column to a target index: each target date takes the source
cell at that date, missing when the date is absent from the source index.
This is the pandas alignment performed by `combined_df[ticker] = series` and
by `pd.concat(..., axis=1)`. -/
def alignCol (idx srcIdx : List ℤ) (c : Column) : Column :=
  ⟨c.dtype, idx.map (fun d => ((srcIdx.zip c.cells).lookup d).join)⟩

/-- `combined_df[name] = column`: overwrite the column in place when the name
exists, else append it. -/
def setCol (cols : List (String × Column)) (name : String) (c : Column) :
    List (String × Column) :=
  if cols.any (fun p => p.1 = name) then
    cols.map (fun p => if p.1 = name then (name, c) else p)
  else
    cols ++ [(name, c)]

/-- `pd.concat([a, b], axis=1)` with outer join: the index becomes the union of
both indexes (kept as-is when equal; pandas may additionally sort a
non-equal union, which no claim here depends on), and both column blocks are
realigned to it. -/
def outerConcat (a b : DataFrame) : DataFrame :=
  let idx := if a.index = b.index then a.index
             else a.index ++ b.index.filter (fun d => ¬ d ∈ a.index)
  ⟨idx, a.cols.map (fun p => (p.1, alignCol idx a.index p.2)) ++
        b.cols.map (fun p => (p.1, alignCol idx b.index p.2))⟩

/-- The merge loop of the multi-ticker branch: failed tickers (`none`) are
skipped; in `adj_close_only` mode the ticker's `adjClose` column (a `KeyError`
if the parsed frame lacks it) is aligned and assigned under the ticker's name;
otherwise the whole frame is column-concatenated. -/
def mergeLoop (adj : Bool) (acc : DataFrame) :
    List (String × Option DataFrame) → Except PyErr DataFrame
  | [] => .ok acc
  | (t, od) :: rest =>
      match od with
      | none => mergeLoop adj acc rest
      | some df =>
          if adj then
            match df.cols.lookup "adjClose" with
            | none => .error (.keyError "adjClose")
            | some c => mergeLoop adj ⟨acc.index, setCol acc.cols t (alignCol acc.index df.index c)⟩ rest
          else mergeLoop adj (outerConcat acc df) rest

/-- `DataHandler.get_historical_data`, with the per-ticker network fetch
abstracted into `fetch` (the value of `fetch_data ticker`'s second component:
`none` for any caught transport/HTTP/parse failure). The result pairs the
Python return value (`none` models Python `None`) with whether the
empty-merge warning was emitted. -/
def get_historical_data (tks : TickersArg) (fetch : String → Option DataFrame)
    (startD endD : ℤ) (adj : Bool) : Except PyErr (Option DataFrame × Bool) :=
  let tickers := normTickers tks
  let results := tickers.map (fun t => (t, fetch t))
  if tickers.length = 1 then
    match results with
    | (_, od) :: _ =>
        match od with
        | some df =>
            if adj then (dfSelectNames df ["adjClose"]).map (fun d => (some d, false))
            else .ok (some df, false)
        | none => .ok (none, false)
    | [] => .ok (none, false)
  else
    match mergeLoop adj ⟨dateRange startD endD, []⟩ results with
    | .error e => .error e
    | .ok combined => .ok (some combined, dfEmpty combined)

/-- Names contributed to the merged frame by the succeeding tickers: the
ticker's own name in `adj_close_only` mode, its frame's column names
otherwise; failed tickers contribute nothing. -/
def contributed (adj : Bool) (results : List (String × Option DataFrame)) : List String :=
  results.foldr
    (fun p acc =>
      (match p.2 with
       | some df => if adj then [p.1] else colNames df
       | none => []) ++ acc) []

/-- A fetch outcome usable on the `adj_close_only` path: a succeeded frame
must carry an `adjClose` column. -/
def hasAdjO : Option DataFrame → Bool
  | some df => (df.cols.lookup "adjClose").isSome
  | none => true

/-- `DataHandler.construct_url`. `today` is the ambient `dt.date.today()`
value the code reads when `end_date` is omitted. Python truthiness: an empty
`start_date` string is dropped like `None`, an empty `frequency` keeps the
default `daily`. The parameter dict keeps insertion order
(format, resampleFreq, startDate, endDate), `None` values are filtered out. -/
def construct_url (ticker : String) (start_date end_date frequency : Option String)
    (today : String) : String :=
  let endD := end_date.getD today
  let freqV := match frequency with
    | some f => if f = "" then "daily" else f
    | none => "daily"
  let startP := match start_date with
    | some s => if s = "" then [] else [("startDate", s)]
    | none => []
  let params := [("format", "csv"), ("resampleFreq", freqV)] ++ startP ++ [("endDate", endD)]
  "https://api.tiingo.com/tiingo/daily/" ++ ticker ++ "/prices?" ++
    String.intercalate "&" (params.map (fun p => p.1 ++ "=" ++ p.2))

/-- The state `DataHandler.__init__` builds from the credential file. -/
structure Handler where
  token : String
deriving DecidableEq

/-- Python `str.strip()`: remove leading and trailing whitespace. -/
def pyStrip (s : String) : String :=
  ⟨((s.data.dropWhile Char.isWhitespace).reverse.dropWhile Char.isWhitespace).reverse⟩

/-- `DataHandler.__init__`: `none` models an unreadable credential file, whose
`open` failure propagates; otherwise the file content is read and stripped of
surrounding whitespace, with no further check. -/
def DataHandler_init : Option String → Except PyErr Handler
  | none => .error .ioError
  | some content => .ok ⟨pyStrip content⟩

/-- Outcome of the probe request `test_connections` issues: a 2xx response
with a JSON body, a transport failure, a non-2xx status (raised by
`raise_for_status`), or a JSON decode failure (a `RequestException` subclass
in the `requests` library, hence caught like the others). -/
inductive ProbeOutcome where
  | ok (json : String)
  | transportError (msg : String)
  | httpError (msg : String)
  | jsonDecodeError (msg : String)

/-- Observable result of `test_connections`: the printed status line, the
exception escaping the call if any, and the Python return value. -/
structure TCResult where
  printed : String
  raised : Option String
  returned : Option String

/-- `DataHandler.test_connections`: prints a success line with the parsed
body, or a failure line from the caught `RequestException`; it returns
`None` on every path and lets nothing escape. -/
def test_connections : ProbeOutcome → TCResult
  | .ok j => ⟨"Connection successful: " ++ j, none, none⟩
  | .transportError m => ⟨"Connection failed: " ++ m, none, none⟩
  | .httpError m => ⟨"Connection failed: " ++ m, none, none⟩
  | .jsonDecodeError m => ⟨"Connection failed: " ++ m, none, none⟩

/-- The selector (if any) names only existing columns, so that `df[columns]`
does not raise `KeyError`. -/
def selValid (df : DataFrame) (carg : ColsArg) : Bool :=
  match normalizeCols carg with
  | some names => names.all (fun n => (df.cols.lookup n).isSome)
  | none => true

/-- The frame `get_returns` works on after the optional narrowing: the
selected columns in selector order, or the frame itself when no selector is
supplied. -/
def narrowed (df : DataFrame) (carg : ColsArg) : DataFrame :=
  match normalizeCols carg with
  | some names => ⟨df.index, names.map (fun n => (n, (df.cols.lookup n).getD ⟨Dtype.object, []⟩))⟩
  | none => df

/-- Two-row price frame holding the column [100, 110]. -/
def dfPrices : DataFrame :=
  ⟨[0, 1], [("X", ⟨Dtype.numeric, [some 100, some 110]⟩)]⟩

/-- Two-row price frame holding two identical consecutive values. -/
noncomputable def dfConst (v : ℝ) : DataFrame :=
  ⟨[0, 1], [("X", ⟨Dtype.numeric, [some v, some v]⟩)]⟩

/-- Two-row frame with one numeric and one non-numeric column. -/
def dfMixed : DataFrame :=
  ⟨[0, 1], [("num", ⟨Dtype.numeric, [some 1, some 2]⟩),
            ("txt", ⟨Dtype.object, [none, none]⟩)]⟩

/-- One-row parsed series whose single date 100 lies outside the range 0..1. -/
def dfTickerA : DataFrame :=
  ⟨[100], [("adjClose", ⟨Dtype.numeric, [some 5]⟩)]⟩

/-- One-row parsed series at date 0. -/
def dfTickerB : DataFrame :=
  ⟨[0], [("adjClose", ⟨Dtype.numeric, [some 7]⟩)]⟩

/-- Fetch outcome where tickers A and B both succeed. -/
def fetchAB : String → Option DataFrame :=
  fun t => if t = "A" then some dfTickerA else if t = "B" then some dfTickerB else none

lemma heapCompute_extend (h : Heap) (ndf : DataFrame) (lg : Bool) :
    ∃ ext, (heapCompute h ndf lg).1 = h ++ ext := by
  by_cases hnn : nonNumericNames ndf = []
  · exact ⟨[⟨ndf.index, ndf.cols.map (fun p => (p.1, retColumn lg p.2))⟩,
           ⟨ndf.index, ndf.cols.map (fun p => (p.1, retColumn lg p.2))⟩],
      by simp [heapCompute, hnn]⟩
  · exact ⟨[], by simp [heapCompute, hnn]⟩

/-- C10: `get_returns` leaves the caller's frame untouched on every path —
the heap-level translation only ever allocates fresh frames, so the final
heap extends the initial one and the initial segment (which holds the
caller's table) is unchanged, whether the call returns a result or raises. -/
theorem getReturns_no_mutation (h : Heap) (r : Nat) (carg : ColsArg) (lg : Bool) :
    (∃ ext, (get_returns_heap h r carg lg).1 = h ++ ext) ∧
    (get_returns_heap h r carg lg).1.take h.length = h := by
  have hext : ∃ ext, (get_returns_heap h r carg lg).1 = h ++ ext := by
    unfold get_returns_heap
    dsimp only
    split
    · exact ⟨[], by simp⟩
    · split
      · split
        · exact ⟨[], by simp⟩
        · rename_i ndf _
          rcases heapCompute_extend (h ++ [ndf]) ndf lg with ⟨ext, hx⟩
          exact ⟨[ndf] ++ ext, by rw [hx, List.append_assoc]⟩
      · exact heapCompute_extend h _ lg
  refine ⟨hext, ?_⟩
  rcases hext with ⟨ext, hext⟩
  rw [hext, List.take_left]

/-- C7 (counterexample): with `endDate` omitted, `construct_url` reads the
ambient current date, so two invocations with identical arguments can return
different URLs. -/
theorem constructUrl_today_cex :
    construct_url "AAPL" none none none "2026-10-12" ≠
      construct_url "AAPL" none none none "2026-10-13" := by
  decide

/-- C7 (amended): `construct_url` is deterministic in its explicit arguments
and independent of the ambient current date whenever `end_date` is supplied;
only the omitted-`end_date` case reads the current date. -/
theorem constructUrl_deterministic (ticker e : String)
    (start_date frequency : Option String) (t1 t2 : String) :
    construct_url ticker start_date (some e) frequency t1 =
      construct_url ticker start_date (some e) frequency t2 := rfl

/-- C8 (counterexample): a whitespace-only credential file is accepted —
construction succeeds with an empty token instead of failing. -/
theorem init_empty_token_cex :
    DataHandler_init (some " \n") = .ok ⟨""⟩ := by
  have h : pyStrip " \n" = "" := by decide
  simp [DataHandler_init, h]

/-- C8 (amended): construction reads and trims the credential, and fails
(with the propagated I/O error) exactly when the source is unreadable; an
empty or whitespace-only credential is accepted, yielding an empty token. -/
theorem init_behavior :
    DataHandler_init none = .error .ioError ∧
    ∀ s : String, DataHandler_init (some s) = .ok ⟨pyStrip s⟩ :=
  ⟨rfl, fun _ => rfl⟩

/-- C9 (counterexample): `test_connections` returns `None` even on a
successful probe — the status is only printed, never returned to the
caller. -/
theorem testConnections_returns_none_cex :
    (test_connections (.ok "ok")).returned = none := rfl

/-- C9 (amended): for every probe outcome `test_connections` lets no
exception escape and completes with a printed status line, returning `None`
to the caller in all cases. -/
theorem testConnections_total (o : ProbeOutcome) :
    ∃ line, test_connections o = ⟨line, none, none⟩ := by
  cases o <;> exact ⟨_, rfl⟩

/-- C2: `get_returns` computes, per cell from the second row onward, the
logarithmic return `ln (value / previous)` when the log flag is set and the
simple return `(value - previous) / previous` otherwise; on the column
[100, 110] the second-row result is exactly 1/10 (simple) respectively
`ln (11/10)` (log), and on two identical consecutive nonzero values it is
exactly 0 in both modes. -/
theorem computeReturns_values :
    (∀ prev cur : ℝ, 0 < prev → 0 < cur →
        retCell true (some cur) (some prev) = some (Real.log (cur / prev)) ∧
        retCell false (some cur) (some prev) = some ((cur - prev) / prev)) ∧
    get_returns dfPrices .noneArg false =
      .ok ⟨[0, 1], [("X", ⟨Dtype.numeric, [none, some (1 / 10)]⟩)]⟩ ∧
    get_returns dfPrices .noneArg true =
      .ok ⟨[0, 1], [("X", ⟨Dtype.numeric, [none, some (Real.log (11 / 10))]⟩)]⟩ ∧
    ∀ v : ℝ, v ≠ 0 → ∀ lg : Bool,
      get_returns (dfConst v) .noneArg lg =
        .ok ⟨[0, 1], [("X", ⟨Dtype.numeric, [none, some 0]⟩)]⟩ := by
  refine ⟨fun prev cur hp hc => ?_, ?_, ?_, fun v hv lg => ?_⟩
  · have h1 : prev ≠ 0 := ne_of_gt hp
    have h2 : ¬ cur / prev ≤ 0 := not_le.mpr (div_pos hc hp)
    exact ⟨by simp [retCell, logCell, h1, h2], by simp [retCell, pctCell, h1]⟩
  · norm_num [get_returns, dfPrices, dfEmpty, normalizeCols, returnsCompute,
      nonNumericNames, retColumn, shift1, retCell, pctCell]
  · norm_num [get_returns, dfPrices, dfEmpty, normalizeCols, returnsCompute,
      nonNumericNames, retColumn, shift1, retCell, logCell]
  · cases lg <;>
      simp [get_returns, dfConst, dfEmpty, normalizeCols, returnsCompute,
        nonNumericNames, retColumn, shift1, retCell, pctCell, logCell, hv,
        div_self hv]

/-- Witness for C2: the identical-values clause instantiated at value 100 in
log mode. -/
theorem computeReturns_values_witness :
    get_returns (dfConst 100) .noneArg true =
      .ok ⟨[0, 1], [("X", ⟨Dtype.numeric, [none, some 0]⟩)]⟩ :=
  computeReturns_values.2.2.2 100 (by norm_num) true

lemma lookup_mem {l : List (String × Column)} {n : String} {c : Column}
    (h : l.lookup n = some c) : (n, c) ∈ l := by
  rcases List.lookup_eq_some_iff.mp h with ⟨l₁, l₂, rfl, _⟩
  simp

lemma dfSelectNames_ok (df : DataFrame) (names : List String)
    (h : names.all (fun n => (df.cols.lookup n).isSome) = true) :
    dfSelectNames df names =
      .ok ⟨df.index, names.map (fun n => (n, (df.cols.lookup n).getD ⟨Dtype.object, []⟩))⟩ := by
  unfold dfSelectNames
  have hf : names.find? (fun n => (df.cols.lookup n).isNone) = none := by
    rw [List.find?_eq_none]
    intro n hn
    have := List.all_eq_true.mp h n hn
    simp_all
  rw [hf]

lemma get_returns_ok_shape (df : DataFrame) (carg : ColsArg) (lg : Bool)
    (out : DataFrame) (hok : get_returns df carg lg = .ok out) :
    ¬(dfEmpty df = true ∨ df.index.length < 2) ∧
    selValid df carg = true ∧
    out = ⟨(narrowed df carg).index,
           (narrowed df carg).cols.map (fun p => (p.1, retColumn lg p.2))⟩ := by
  by_cases hE : dfEmpty df = true ∨ df.index.length < 2
  · simp [get_returns, hE] at hok
  · refine ⟨hE, ?_⟩
    rcases hc : normalizeCols carg with _ | names
    · rw [get_returns, if_neg hE, hc] at hok
      rw [returnsCompute] at hok
      by_cases hN : nonNumericNames df = []
      · rw [if_pos hN] at hok
        injection hok with hout
        exact ⟨by simp [selValid, hc], by simp [narrowed, hc, hout.symm]⟩
      · rw [if_neg hN] at hok
        exact absurd hok (by simp)
    · rw [get_returns, if_neg hE] at hok
      simp only [hc] at hok
      rcases hS : dfSelectNames df names with e | ndf
      · simp only [hS] at hok
        simp at hok
      · simp only [hS] at hok
        have hfind : names.find? (fun n => (df.cols.lookup n).isNone) = none ∧
            ndf = ⟨df.index,
                   names.map (fun n => (n, (df.cols.lookup n).getD ⟨Dtype.object, []⟩))⟩ := by
          unfold dfSelectNames at hS
          rcases hf : names.find? (fun n => (df.cols.lookup n).isNone) with _ | m
          · rw [hf] at hS
            injection hS with h
            exact ⟨rfl, h.symm⟩
          · rw [hf] at hS
            simp at hS
        have hall : names.all (fun n => (df.cols.lookup n).isSome) = true := by
          rw [List.all_eq_true]
          intro n hn
          have := List.find?_eq_none.mp hfind.1 n hn
          cases hx : df.cols.lookup n
          · simp [hx] at this
          · rfl
        rw [returnsCompute] at hok
        by_cases hN : nonNumericNames ndf = []
        · rw [if_pos hN] at hok
          injection hok with hout
          refine ⟨by simp [selValid, hc, hall], ?_⟩
          rw [← hout, hfind.2]
          simp [narrowed, hc]
        · rw [if_neg hN] at hok
          exact absurd hok (by simp)

lemma retCell_none_right (lg : Bool) (x : Option ℝ) : retCell lg x none = none := by
  cases lg <;> cases x <;> rfl

lemma head_retColumn (lg : Bool) (c : Column) (h : c.cells ≠ []) :
    (retColumn lg c).cells.head? = some none := by
  rcases c with ⟨d, cells⟩
  cases cells with
  | nil => simp at h
  | cons x xs => simp [retColumn, shift1, retCell_none_right]

lemma narrowed_index (df : DataFrame) (carg : ColsArg) :
    (narrowed df carg).index = df.index := by
  cases carg <;> simp [narrowed, normalizeCols]

lemma narrowed_wf (df : DataFrame) (carg : ColsArg) (hWF : dfWF df)
    (hsel : selValid df carg = true) :
    ∀ q ∈ (narrowed df carg).cols, q.2.cells.length = df.index.length := by
  rcases hc : normalizeCols carg with _ | names
  · intro q hq
    simp only [narrowed, hc] at hq
    exact hWF q hq
  · intro q hq
    simp only [narrowed, hc, List.mem_map] at hq
    rcases hq with ⟨n, hn, rfl⟩
    simp only [selValid, hc, List.all_eq_true] at hsel
    rcases hx : df.cols.lookup n with _ | c
    · exact absurd (hsel n hn) (by simp [hx])
    · simpa [hx] using hWF (n, c) (lookup_mem hx)

lemma get_returns_eq (df : DataFrame) (carg : ColsArg) (lg : Bool)
    (hsel : selValid df carg = true)
    (hE : ¬(dfEmpty df = true ∨ df.index.length < 2)) :
    get_returns df carg lg = returnsCompute lg (narrowed df carg) := by
  rw [get_returns, if_neg hE]
  rcases hc : normalizeCols carg with _ | names
  · simp [narrowed, hc]
  · simp only [hc]
    have hall : names.all (fun n => (df.cols.lookup n).isSome) = true := by
      simpa [selValid, hc] using hsel
    rw [dfSelectNames_ok df names hall]
    simp [narrowed, hc]

/-- C3: given a selector that names existing columns, `get_returns` raises a
`ValueError` exactly when the input frame is empty or shorter than 2 rows, or
some column of the (selector-narrowed) frame is non-numeric; the narrowing
happens before the dtype check, so non-numeric columns outside the selection
never cause a failure, and the non-numeric error names exactly the offending
columns. -/
theorem computeReturns_validation_iff (df : DataFrame) (carg : ColsArg) (lg : Bool)
    (hsel : selValid df carg = true) :
    ((get_returns df carg lg = .error .valueErrorEmpty) ↔
      (dfEmpty df = true ∨ df.index.length < 2)) ∧
    ((∃ ns, get_returns df carg lg = .error (.valueErrorNonNumeric ns)) ↔
      (¬(dfEmpty df = true ∨ df.index.length < 2) ∧
        nonNumericNames (narrowed df carg) ≠ [])) ∧
    (∀ ns, get_returns df carg lg = .error (.valueErrorNonNumeric ns) →
      ns = nonNumericNames (narrowed df carg)) ∧
    ((∃ out, get_returns df carg lg = .ok out) ↔
      (¬(dfEmpty df = true ∨ df.index.length < 2) ∧
        nonNumericNames (narrowed df carg) = [])) := by
  by_cases hE : dfEmpty df = true ∨ df.index.length < 2
  · have hgr : get_returns df carg lg = .error .valueErrorEmpty := by
      rw [get_returns, if_pos hE]
    refine ⟨by simp [hgr, hE], ?_, by simp [hgr], ?_⟩
    · constructor
      · rintro ⟨ns, h⟩
        rw [hgr] at h
        simp at h
      · rintro ⟨hne, _⟩
        exact absurd hE hne
    · constructor
      · rintro ⟨out, h⟩
        rw [hgr] at h
        simp at h
      · rintro ⟨hne, _⟩
        exact absurd hE hne
  · have hgr := get_returns_eq df carg lg hsel hE
    by_cases hN : nonNumericNames (narrowed df carg) = []
    · have : get_returns df carg lg =
          .ok ⟨(narrowed df carg).index,
               (narrowed df carg).cols.map (fun p => (p.1, retColumn lg p.2))⟩ := by
        rw [hgr, returnsCompute, if_pos hN]
      exact ⟨by simp [this, hE], by simp [this, hN], by simp [this], by simp [this, hE, hN]⟩
    · have : get_returns df carg lg =
          .error (.valueErrorNonNumeric (nonNumericNames (narrowed df carg))) := by
        rw [hgr, returnsCompute, if_neg hN]
      refine ⟨by simp [this, hE], ?_, ?_, by simp [this, hE, hN]⟩
      · constructor
        · intro _
          exact ⟨hE, hN⟩
        · intro _
          exact ⟨nonNumericNames (narrowed df carg), this⟩
      · intro ns hns
        rw [this] at hns
        injection hns with h
        injection h with h
        exact h.symm

/-- Witness for C3: on a frame with a numeric column "num" and a non-numeric
column "txt", selecting "num" avoids the `ValueError` the unselected text
column would otherwise trigger. -/
theorem computeReturns_validation_iff_witness :
    ∃ out, get_returns dfMixed (.strArg "num") false = .ok out :=
  (computeReturns_validation_iff dfMixed (.strArg "num") false (by decide)).2.2.2.mpr
    (by decide)

/-- C6: whenever `get_returns` succeeds on a well-formed frame, the result's
index is identical to (and in the same order as) the narrowed input's index,
which is the original input's index; no row is dropped, and the first entry
of every result column holds the missing marker. -/
theorem computeReturns_index_preserved (df : DataFrame) (carg : ColsArg) (lg : Bool)
    (out : DataFrame) (hWF : dfWF df) (hok : get_returns df carg lg = .ok out) :
    out.index = (narrowed df carg).index ∧ out.index = df.index ∧
    out.index.length = df.index.length ∧
    ∀ p ∈ out.cols, p.2.cells.head? = some none := by
  rcases get_returns_ok_shape df carg lg out hok with ⟨hE, hsel, hout⟩
  have hidx := narrowed_index df carg
  have hlen2 : 2 ≤ df.index.length := by
    push_neg at hE
    omega
  refine ⟨by rw [hout], by rw [hout]; exact hidx, by rw [hout, hidx], ?_⟩
  intro p hp
  rw [hout] at hp
  simp only [List.mem_map] at hp
  rcases hp with ⟨q, hq, rfl⟩
  have hlen := narrowed_wf df carg hWF hsel q hq
  apply head_retColumn
  intro hnil
  rw [hnil] at hlen
  simp at hlen
  omega

/-- Witness for C6: the two-row frame [100, 110] with no selector. -/
theorem computeReturns_index_preserved_witness :
    dfWF dfPrices ∧
    ((⟨[0, 1], [("X", retColumn false ⟨Dtype.numeric, [some 100, some 110]⟩)]⟩ :
        DataFrame).index = (narrowed dfPrices .noneArg).index ∧
      (⟨[0, 1], [("X", retColumn false ⟨Dtype.numeric, [some 100, some 110]⟩)]⟩ :
        DataFrame).index = dfPrices.index ∧
      (⟨[0, 1], [("X", retColumn false ⟨Dtype.numeric, [some 100, some 110]⟩)]⟩ :
        DataFrame).index.length = dfPrices.index.length ∧
      ∀ p ∈ (⟨[0, 1], [("X", retColumn false ⟨Dtype.numeric, [some 100, some 110]⟩)]⟩ :
        DataFrame).cols, p.2.cells.head? = some none) :=
  ⟨by simp [dfWF, dfPrices],
   computeReturns_index_preserved dfPrices .noneArg false
     ⟨[0, 1], [("X", retColumn false ⟨Dtype.numeric, [some 100, some 110]⟩)]⟩
     (by simp [dfWF, dfPrices]) rfl⟩

lemma colNames_setCol (cols : List (String × Column)) (n : String) (c : Column) :
    (setCol cols n c).map Prod.fst =
      if n ∈ cols.map Prod.fst then cols.map Prod.fst else cols.map Prod.fst ++ [n] := by
  by_cases hmem : n ∈ cols.map Prod.fst
  · have hany : cols.any (fun p => p.1 = n) = true := by
      rw [List.any_eq_true]
      rcases List.mem_map.mp hmem with ⟨p, hp, hpn⟩
      exact ⟨p, hp, by simp [hpn]⟩
    rw [setCol, if_pos hany, if_pos hmem, List.map_map]
    apply List.map_congr_left
    intro p hp
    by_cases hpe : p.1 = n <;> simp [hpe]
  · have hany : ¬ cols.any (fun p => p.1 = n) = true := by
      rw [List.any_eq_true]
      rintro ⟨p, hp, hpn⟩
      simp at hpn
      exact hmem (List.mem_map.mpr ⟨p, hp, hpn⟩)
    rw [setCol, if_neg hany, if_neg hmem]
    simp

lemma setCol_names_toFinset (cols : List (String × Column)) (n : String) (c : Column) :
    ((setCol cols n c).map Prod.fst).toFinset = (cols.map Prod.fst).toFinset ∪ {n} := by
  rw [colNames_setCol]
  by_cases hmem : n ∈ cols.map Prod.fst
  · rw [if_pos hmem]
    ext x
    simp only [List.mem_toFinset, Finset.mem_union, Finset.mem_singleton]
    constructor
    · exact fun h => Or.inl h
    · rintro (h | rfl)
      · exact h
      · exact hmem
  · rw [if_neg hmem]
    simp

lemma setCol_names_nodup (cols : List (String × Column)) (n : String) (c : Column)
    (h : (cols.map Prod.fst).Nodup) : ((setCol cols n c).map Prod.fst).Nodup := by
  rw [colNames_setCol]
  by_cases hmem : n ∈ cols.map Prod.fst
  · rw [if_pos hmem]
    exact h
  · rw [if_neg hmem]
    simp [List.nodup_append, h, hmem]

lemma colNames_outerConcat (a b : DataFrame) :
    colNames (outerConcat a b) = colNames a ++ colNames b := by
  unfold outerConcat colNames
  simp only [List.map_append, List.map_map]
  congr 1

lemma contributed_cons (adj : Bool) (t : String) (od : Option DataFrame)
    (rest : List (String × Option DataFrame)) :
    contributed adj ((t, od) :: rest) =
      (match od with
       | some df => if adj then [t] else colNames df
       | none => []) ++ contributed adj rest := rfl

lemma mergeLoop_all_none (adj : Bool) (results : List (String × Option DataFrame))
    (acc : DataFrame) (h : ∀ p ∈ results, p.2 = none) :
    mergeLoop adj acc results = .ok acc := by
  induction results generalizing acc with
  | nil => rfl
  | cons p rest ih =>
    rcases p with ⟨t, od⟩
    have hod : od = none := h (t, od) (by simp)
    subst hod
    simpa [mergeLoop] using ih acc (fun q hq => h q (by simp [hq]))

lemma mergeLoop_subset (adj : Bool) (results : List (String × Option DataFrame))
    (acc : DataFrame)
    (h : adj = true → ∀ p ∈ results, hasAdjO p.2 = true) :
    ∃ out, mergeLoop adj acc results = .ok out ∧
      out.cols.map Prod.fst ⊆ acc.cols.map Prod.fst ++ contributed adj results := by
  induction results generalizing acc with
  | nil => exact ⟨acc, rfl, by simp [contributed]⟩
  | cons p rest ih =>
    rcases p with ⟨t, od⟩
    rcases od with _ | df
    · rcases ih acc (fun ha q hq => h ha q (by simp [hq])) with ⟨out, hml, hsub⟩
      refine ⟨out, by simpa [mergeLoop] using hml, ?_⟩
      rw [contributed_cons]
      simpa using hsub
    · cases adj with
      | true =>
        have hadj : hasAdjO (some df) = true := h rfl (t, some df) (by simp)
        have hsome : (df.cols.lookup "adjClose").isSome = true := hadj
        rcases Option.isSome_iff_exists.mp hsome with ⟨c, hc⟩
        rcases ih ⟨acc.index, setCol acc.cols t (alignCol acc.index df.index c)⟩
            (fun ha q hq => h ha q (by simp [hq])) with ⟨out, hml, hsub⟩
        refine ⟨out, by simp only [mergeLoop, hc, if_true]; exact hml, ?_⟩
        intro a ha
        have hmem := hsub ha
        rw [contributed_cons]
        simp only [List.mem_append] at hmem ⊢
        have hsc := colNames_setCol acc.cols t (alignCol acc.index df.index c)
        rcases hmem with hm | hm
        · rw [hsc] at hm
          by_cases hT : t ∈ acc.cols.map Prod.fst
        <;> simp_all
          <;> rcases hm with hm | hm <;> simp_all
        · right
          simp [hm]
      | false =>
        rcases ih (outerConcat acc df) (fun ha q hq => h ha q (by simp [hq]))
          with ⟨out, hml, hsub⟩
        refine ⟨out, by simpa [mergeLoop] using hml, ?_⟩
        intro a ha
        have hmem := hsub ha
        rw [contributed_cons]
        have hoc := colNames_outerConcat acc df
        unfold colNames at hoc
        rw [hoc] at hmem
        simp only [List.mem_append] at hmem ⊢
        tauto

lemma mergeLoop_adj (results : List (String × Option DataFrame)) (acc : DataFrame)
    (h : ∀ p ∈ results, hasAdjO p.2 = true) :
    ∃ out, mergeLoop true acc results = .ok out ∧
      out.index = acc.index ∧
      (out.cols.map Prod.fst).toFinset =
        (acc.cols.map Prod.fst).toFinset ∪
          (results.filterMap (fun p => p.2.map (fun _ => p.1))).toFinset ∧
      ((acc.cols.map Prod.fst).Nodup → (out.cols.map Prod.fst).Nodup) := by
  induction results generalizing acc with
  | nil => exact ⟨acc, rfl, rfl, by simp, fun hd => hd⟩
  | cons p rest ih =>
    rcases p with ⟨t, od⟩
    rcases od with _ | df
    · rcases ih acc (fun q hq => h q (by simp [hq])) with ⟨out, hml, hidx, hfin, hnd⟩
      exact ⟨out, by simpa [mergeLoop] using hml, hidx, by simpa using hfin, hnd⟩
    · have hadj : hasAdjO (some df) = true := h (t, some df) (by simp)
      have hsome : (df.cols.lookup "adjClose").isSome = true := hadj
      rcases Option.isSome_iff_exists.mp hsome with ⟨c, hc⟩
      rcases ih ⟨acc.index, setCol acc.cols t (alignCol acc.index df.index c)⟩
          (fun q hq => h q (by simp [hq])) with ⟨out, hml, hidx, hfin, hnd⟩
      refine ⟨out, by simp only [mergeLoop, hc, if_true]; exact hml, by simpa using hidx,
        ?_, fun hd => hnd (setCol_names_nodup _ _ _ hd)⟩
      rw [hfin]
      have hsc := setCol_names_toFinset acc.cols t (alignCol acc.index df.index c)
      simp only at hsc
      rw [hsc]
      have hfm : (((t, some df) : String × Option DataFrame) :: rest).filterMap
          (fun p => p.2.map (fun _ => p.1)) =
          t :: rest.filterMap (fun p => p.2.map (fun _ => p.1)) := by simp
      rw [hfm]
      ext x
      simp only [Finset.mem_union, Finset.mem_singleton, List.toFinset_cons, Finset.mem_insert]
      tauto

lemma filterMap_succ_all (tickers : List String) (fetch : String → Option DataFrame)
    (h : ∀ t ∈ tickers, (fetch t).isSome = true) :
    (tickers.map (fun t => (t, fetch t))).filterMap (fun p => p.2.map (fun _ => p.1))
      = tickers := by
  induction tickers with
  | nil => rfl
  | cons t rest ih =>
    rcases Option.isSome_iff_exists.mp (h t (by simp)) with ⟨df, hdf⟩
    simp [hdf, ih (fun x hx => h x (by simp [hx]))]

/-- C1: on the multi-ticker path (at least two tickers), whenever every
succeeded frame carries an `adjClose` column, `get_historical_data` returns a
merged table without raising, no matter which subset of tickers failed; the
merged table's columns all come from the succeeding tickers, and when every
ticker fails the result has zero columns and the empty-merge warning is
emitted. -/
theorem fetchHistorical_partial_failure (tks : TickersArg)
    (fetch : String → Option DataFrame) (s e : ℤ) (adj : Bool)
    (hn : 2 ≤ (normTickers tks).length)
    (hadj : adj = true → ∀ t ∈ normTickers tks, hasAdjO (fetch t) = true) :
    ∃ out warned, get_historical_data tks fetch s e adj = .ok (some out, warned) ∧
      colNames out ⊆ contributed adj ((normTickers tks).map (fun t => (t, fetch t))) ∧
      ((∀ t ∈ normTickers tks, fetch t = none) → out.cols = [] ∧ warned = true) := by
  have hres : adj = true →
      ∀ p ∈ (normTickers tks).map (fun t => (t, fetch t)), hasAdjO p.2 = true := by
    intro ha p hp
    rcases List.mem_map.mp hp with ⟨t, ht, rfl⟩
    exact hadj ha t ht
  rcases mergeLoop_subset adj ((normTickers tks).map (fun t => (t, fetch t)))
      ⟨dateRange s e, []⟩ hres with ⟨out, hml, hsub⟩
  have hlen : ¬ (normTickers tks).length = 1 := by omega
  have hghd : get_historical_data tks fetch s e adj = .ok (some out, dfEmpty out) := by
    unfold get_historical_data
    dsimp only
    rw [if_neg hlen, hml]
  refine ⟨out, dfEmpty out, hghd, by simpa [colNames] using hsub, ?_⟩
  intro hall
  have hnone : ∀ p ∈ (normTickers tks).map (fun t => (t, fetch t)), p.2 = none := by
    intro p hp
    rcases List.mem_map.mp hp with ⟨t, ht, rfl⟩
    exact hall t ht
  have hml0 := mergeLoop_all_none adj ((normTickers tks).map (fun t => (t, fetch t)))
    ⟨dateRange s e, []⟩ hnone
  rw [hml0] at hml
  injection hml with hml
  constructor
  · rw [← hml]
  · rw [← hml]
    simp [dfEmpty]

/-- Witness for C1: two requested tickers, both fetches fail. -/
theorem fetchHistorical_partial_failure_witness :
    ∃ out warned,
      get_historical_data (.many ["A", "B"]) (fun _ => none) 0 1 true = .ok (some out, warned) ∧
      colNames out ⊆ contributed true ((normTickers (.many ["A", "B"])).map
        (fun t => (t, (none : Option DataFrame)))) ∧
      ((∀ t ∈ normTickers (.many ["A", "B"]), (none : Option DataFrame) = none) →
        out.cols = [] ∧ warned = true) :=
  fetchHistorical_partial_failure (.many ["A", "B"]) (fun _ => none) 0 1 true
    (by decide) (fun _ t _ => rfl)

/-- C4 (counterexample): both tickers succeed in `adj_close_only` mode, but
ticker A's parsed series holds the date 100, outside the requested range
0..1; column assignment aligns each series to the fixed
`pd.date_range(start, end)` index and drops out-of-range dates, so the merged
index [0, 1] is not a superset of A's index [100]. -/
theorem fetchHistorical_superset_cex :
    ∃ out warned,
      get_historical_data (.many ["A", "B"]) fetchAB 0 1 true = .ok (some out, warned) ∧
      (100 : ℤ) ∈ dfTickerA.index ∧ (100 : ℤ) ∉ out.index :=
  ⟨⟨[0, 1], [("A", ⟨Dtype.numeric, [none, none]⟩), ("B", ⟨Dtype.numeric, [some 7, none]⟩)]⟩,
   false, rfl, by decide, by decide⟩

/-- C4 (amended): on the multi-ticker `adj_close_only` path with every fetch
succeeding (and carrying an `adjClose` column), the merged table's column
count equals the number of unique tickers requested, and its index equals the
requested date range — hence it contains every individual ticker's date that
lies within the requested range, but not dates outside it. -/
theorem fetchHistorical_merge_shape (tks : TickersArg)
    (fetch : String → Option DataFrame) (s e : ℤ)
    (hn : 2 ≤ (normTickers tks).length)
    (hsucc : ∀ t ∈ normTickers tks, (fetch t).isSome = true ∧ hasAdjO (fetch t) = true) :
    ∃ out warned, get_historical_data tks fetch s e true = .ok (some out, warned) ∧
      out.cols.length = (normTickers tks).toFinset.card ∧
      out.index = dateRange s e ∧
      (∀ t df, t ∈ normTickers tks → fetch t = some df →
        ∀ d ∈ df.index, d ∈ dateRange s e → d ∈ out.index) := by
  have hres : ∀ p ∈ (normTickers tks).map (fun t => (t, fetch t)), hasAdjO p.2 = true := by
    intro p hp
    rcases List.mem_map.mp hp with ⟨t, ht, rfl⟩
    exact (hsucc t ht).2
  rcases mergeLoop_adj ((normTickers tks).map (fun t => (t, fetch t)))
      ⟨dateRange s e, []⟩ hres with ⟨out, hml, hidx, hfin, hnd⟩
  have hlen1 : ¬ (normTickers tks).length = 1 := by omega
  have hghd : get_historical_data tks fetch s e true = .ok (some out, dfEmpty out) := by
    unfold get_historical_data
    dsimp only
    rw [if_neg hlen1, hml]
  have hidx2 : out.index = dateRange s e := by simpa using hidx
  have hfm := filterMap_succ_all (normTickers tks) fetch (fun t ht => (hsucc t ht).1)
  have hnodup : (out.cols.map Prod.fst).Nodup := hnd (by simp)
  have hcount : out.cols.length = (normTickers tks).toFinset.card := by
    have h1 : (out.cols.map Prod.fst).toFinset = (normTickers tks).toFinset := by
      rw [hfin, hfm]
      simp
    have h2 : (out.cols.map Prod.fst).toFinset.card = (out.cols.map Prod.fst).length :=
      List.toFinset_card_of_nodup hnodup
    calc out.cols.length = (out.cols.map Prod.fst).length := by simp
      _ = (out.cols.map Prod.fst).toFinset.card := h2.symm
      _ = (normTickers tks).toFinset.card := by rw [h1]
  exact ⟨out, dfEmpty out, hghd, hcount, hidx2, fun t df ht hdf d hd hdr => by rwa [hidx2]⟩

/-- Witness for C4's amended statement: tickers A and B both succeed. -/
theorem fetchHistorical_merge_shape_witness :
    ∃ out warned,
      get_historical_data (.many ["A", "B"]) fetchAB 0 1 true = .ok (some out, warned) ∧
      out.cols.length = (normTickers (.many ["A", "B"])).toFinset.card ∧
      out.index = dateRange 0 1 ∧
      (∀ t df, t ∈ normTickers (.many ["A", "B"]) → fetchAB t = some df →
        ∀ d ∈ df.index, d ∈ dateRange 0 1 → d ∈ out.index) :=
  fetchHistorical_merge_shape (.many ["A", "B"]) fetchAB 0 1 (by decide)
    (by decide)

/-- C5: when exactly one ticker is requested, `get_historical_data` returns
that ticker's frame directly — narrowed to the `adjClose` column when
`adj_close_only` is set, all parsed columns otherwise — or Python `None`
when the fetch failed; the multi-ticker merge structure is never built. -/
theorem fetchHistorical_single (tks : TickersArg) (fetch : String → Option DataFrame)
    (s e : ℤ) (adj : Bool) (t : String) (ht : normTickers tks = [t]) :
    (fetch t = none → get_historical_data tks fetch s e adj = .ok (none, false)) ∧
    (∀ df, fetch t = some df →
      (adj = false → get_historical_data tks fetch s e adj = .ok (some df, false)) ∧
      (adj = true → get_historical_data tks fetch s e adj =
        (dfSelectNames df ["adjClose"]).map (fun d => (some d, false)))) := by
  refine ⟨fun h0 => ?_, fun df hdf => ⟨fun ha => ?_, fun ha => ?_⟩⟩
  · simp only [get_historical_data, ht]
    simp [h0]
  · subst ha
    simp only [get_historical_data, ht]
    simp [hdf]
  · subst ha
    simp only [get_historical_data, ht]
    simp [hdf]

/-- Witness for C5: a single requested ticker whose fetch succeeds. -/
theorem fetchHistorical_single_witness :
    (fetchAB "A" = none → get_historical_data (.one "A") fetchAB 0 1 true = .ok (none, false)) ∧
    (∀ df, fetchAB "A" = some df →
      (true = false → get_historical_data (.one "A") fetchAB 0 1 true = .ok (some df, false)) ∧
      (true = true → get_historical_data (.one "A") fetchAB 0 1 true =
        (dfSelectNames df ["adjClose"]).map (fun d => (some d, false)))) :=
  fetchHistorical_single (.one "A") fetchAB 0 1 true "A" rfl
